import Mathlib

/-!
Verification of the smart-helpdesk triage core: the keyword classifier and
reply drafter (`backend/agent/llmProvider.js`), the knowledge-base ranker
(`backend/services/kbSearch.js`) and the triage pipeline
(`backend/services/triageService.js`), shallowly embedded as executable
Lean definitions.  JavaScript strings are Lean `String`s, numbers are `ℚ`
(exact; every numeric value in scope is representable), document ids are
`ℕ`, and the document stores are explicit lists threaded through the
pipeline.
-/

namespace SmartHelpdesk

/-! ## JavaScript string primitives -/

/-- Does the character list start with the given needle?  (Helper for the
substring test behind JavaScript `String.prototype.includes`.) -/
def startsWithChars : List Char → List Char → Bool
  | [], _ => true
  | _ :: _, [] => false
  | a :: as, b :: bs => a == b && startsWithChars as bs

/-- Does the haystack contain the needle as a contiguous substring?
Embeds JavaScript `hay.includes(needle)` on the underlying characters. -/
def containsChars : List Char → List Char → Bool
  | [], needle => needle.isEmpty
  | h :: hs, needle => startsWithChars needle (h :: hs) || containsChars hs needle

/-- JavaScript `t.includes(w)` for strings. -/
def jsIncludes (t w : String) : Bool := containsChars t.data w.data

/-- JavaScript `s.toLowerCase()` (ASCII case mapping, which covers every
string the keyword heuristics compare against). -/
def jsToLower (s : String) : String := ⟨s.data.map Char.toLower⟩

/-- JavaScript `s.trim()`: strip leading and trailing whitespace. -/
def jsTrim (s : String) : String :=
  ⟨((s.data.dropWhile Char.isWhitespace).reverse.dropWhile Char.isWhitespace).reverse⟩

/-- JavaScript `a || b` on strings: `a` is falsy exactly when it is empty. -/
def jsOrString (a b : String) : String := if a = "" then b else a

/-- JavaScript `a || b` on numbers: `a` is falsy exactly when it is `0`
(no `NaN` arises in scope). -/
def jsOrRat (a b : ℚ) : ℚ := if a = 0 then b else a

/-- `Number(q.toFixed(2))`: round to two decimal places (ties away from
zero on the values in scope, which are all nonnegative). -/
def round2 (q : ℚ) : ℚ := ((round (100 * q) : ℤ) : ℚ) / 100

/-! ## Keyword classifier (`backend/agent/llmProvider.js`, `classify`) -/

/-- One entry of the `heuristics` table: a category and its keywords. -/
structure Heuristic where
  cat : String
  words : List String

/-- The billing keywords of the `heuristics` table. -/
def billingWords : List String := ["refund", "invoice", "charge", "payment", "card", "billing"]

/-- The tech keywords of the `heuristics` table. -/
def techWords : List String := ["error", "bug", "stack", "500", "crash", "login", "auth", "timeout"]

/-- The shipping keywords of the `heuristics` table. -/
def shippingWords : List String := ["delivery", "shipment", "tracking", "package", "courier", "delayed"]

/-- The `heuristics` table of `llmProvider.js`, in declaration order. -/
def heuristics : List Heuristic :=
  [⟨"billing", billingWords⟩, ⟨"tech", techWords⟩, ⟨"shipping", shippingWords⟩]

/-- `h.words.reduce((a,w)=> a + (t.includes(w) ? 1 : 0), 0)`: how many of
the keywords occur in `t`, each counted at most once. -/
def hitCount (t : String) (ws : List String) : ℕ :=
  ws.foldl (fun a w => a + (if jsIncludes t w then 1 else 0)) 0

/-- The running best of the classifier loop: category and score. -/
structure Best where
  cat : String
  score : ℕ
deriving DecidableEq

/-- The classifier loop: starting from `{cat: 'other', score: 0}`, replace
the best entry whenever a category scores strictly more hits. -/
def bestOf (t : String) : Best :=
  heuristics.foldl
    (fun best h =>
      let hits := hitCount t h.words
      if best.score < hits then ⟨h.cat, hits⟩ else best)
    ⟨"other", 0⟩

/-- Result record of `classify`. -/
structure Classification where
  predictedCategory : String
  confidence : ℚ
deriving DecidableEq

/-- `classify(text)` from `llmProvider.js`.  A `null`/`undefined` argument
is `none` and is replaced by the empty string (`text || ''`); the
confidence is `Number(Math.min(1, best.score / 3 || 0.4).toFixed(2))`. -/
def classify (text : Option String) : Classification :=
  let t := jsToLower (text.getD "")
  let best := bestOf t
  let confidence := min 1 (jsOrRat ((best.score : ℚ) / 3) (2/5))
  ⟨best.cat, round2 confidence⟩

/-! ## Knowledge-base articles and the reply drafter -/

/-- A knowledge-base article as the ranker reads it. -/
structure Article where
  id : ℕ
  title : String
  body : String
  tags : List String
  status : String
deriving DecidableEq

/-- Result record of `draft`. -/
structure Draft where
  draftReply : String
  citations : List ℕ
deriving DecidableEq

/-- `draft(_text, articles)` from `llmProvider.js`: a fixed opening line,
one numbered line per article title, and a fixed closing line, joined with
newlines; citations are the article ids in input order.  The first
argument is the unused `_text` parameter. -/
def draft (_text : String) (articles : List Article) : Draft :=
  let lines :=
    "Thanks for reaching out. Here\x27s what might help:" ::
      (articles.enum.map (fun p => toString (p.1 + 1) ++ ". " ++ p.2.title) ++
        ["\nIf this doesn’t resolve it, reply and a human agent will assist."])
  ⟨String.intercalate "\n" lines, articles.map (·.id)⟩

/-! ## Article ranker (`backend/services/kbSearch.js`, `searchTop`)

The escaped case-insensitive regular expression built from the trimmed
query tests for literal substring containment, so `regs.test(s)` is
case-insensitive substring matching. -/

/-- `regs.test(s)` for the escaped, case-insensitive query regex. -/
def matchesQuery (q s : String) : Bool :=
  containsChars (jsToLower s).data (jsToLower q).data

/-- Score of one candidate: title hit 2, tag hit 1, body hit 0.5. -/
def scoreArticle (q : String) (a : Article) : ℚ :=
  (if matchesQuery q a.title then 2 else 0) +
    (if a.tags.any (fun t => matchesQuery q t) then 1 else 0) +
    (if matchesQuery q a.body then 1/2 else 0)

/-- The `Article.find` filter: published and matching the query in title,
body or some tag; the store's ordering of candidates is preserved. -/
def publishedMatches (q : String) (arts : List Article) : List Article :=
  arts.filter (fun a =>
    a.status == "published" &&
      (matchesQuery q a.title || matchesQuery q a.body ||
        a.tags.any (fun t => matchesQuery q t)))

/-- A scored candidate, carrying its position in the candidate list (used
to state stability of the sort). -/
structure Scored where
  article : Article
  pos : ℕ
  score : ℚ
deriving DecidableEq

/-- The mapped, scored candidate list, positions attached in input order. -/
def scoredOf (q : String) (arts : List Article) : List Scored :=
  (publishedMatches q arts).enum.map (fun p => ⟨p.2, p.1, scoreArticle q p.2⟩)

/-- Stable descending insertion: the new element goes after every element
scoring at least as much and before the first element scoring less. -/
def insertDesc (x : Scored) : List Scored → List Scored
  | [] => [x]
  | y :: ys => if y.score ≤ x.score then x :: y :: ys else y :: insertDesc x ys

/-- `.sort((a,b)=> b.score - a.score)`: JavaScript `Array.prototype.sort`
is specified to be stable, so it is the stable descending sort by score. -/
def sortDesc : List Scored → List Scored
  | [] => []
  | x :: xs => insertDesc x (sortDesc xs)

/-- The scored candidates of the (trimmed) query, stably sorted by
descending score. -/
def rankScored (q : String) (arts : List Article) : List Scored :=
  sortDesc (scoredOf q arts)

/-- `searchTop(query, limit)` over an explicit article store: empty for an
empty or whitespace-only query, otherwise the top `limit` articles by
score.  (`.slice(0, limit)` then `.map(s => s.article)`.) -/
def searchTop (query : String) (arts : List Article) (limit : ℕ) : List Article :=
  if query = "" ∨ jsTrim query = "" then []
  else ((rankScored (jsTrim query) arts).take limit).map (·.article)

/-! ## Triage pipeline (`backend/services/triageService.js`)

The document stores are explicit: tickets and articles are lists, the
config store is a per-key lookup that may fail (`.error`, a thrown
lookup), miss (`.ok none`, key absent) or hit (`.ok (some v)`).  The
non-deterministic inputs of a run — the fresh `uuid()`, the id the
suggestion store assigns, the measured draft latency and the `STUB_MODE`
flag — are parameters of the environment. -/

/-- A ticket as the pipeline reads and updates it. -/
structure Ticket where
  id : ℕ
  title : String
  description : String
  category : String
  status : String
  agentSuggestionId : Option ℕ
deriving DecidableEq

/-- The `modelInfo` block of an agent suggestion. -/
structure ModelInfo where
  provider : String
  model : String
  promptVersion : String
  latencyMs : ℕ
  stub : Bool
deriving DecidableEq

/-- An `AgentSuggestion` document as `triageTicket` creates it. -/
structure AgentSuggestion where
  ticketId : ℕ
  predictedCategory : String
  articleIds : List ℕ
  draftReply : String
  citations : List ℕ
  confidence : ℚ
  autoClosed : Bool
  modelInfo : ModelInfo
deriving DecidableEq

/-- An audit-log entry as the pipeline's `log` helper writes it. -/
structure AuditEntry where
  ticketId : ℕ
  traceId : String
  actor : String
  action : String
deriving DecidableEq

/-- `log(ticketId, traceId, action, meta)`: one audit entry with actor
`'system'` (the default). -/
def mkLog (ticketId : ℕ) (traceId action : String) : AuditEntry :=
  ⟨ticketId, traceId, "system", action⟩

/-- The environment of one triage run: the stores and the run's
non-deterministic inputs. -/
structure Env where
  tickets : List Ticket
  articles : List Article
  cfgAutoCloseEnabled : Except Unit (Option Bool)
  cfgConfidenceThreshold : Except Unit (Option ℚ)
  freshTraceId : String
  newSuggestionId : ℕ
  latencyMs : ℕ
  stubMode : Bool

/-- `getFlag(key, fallback)`: `Config.getByKey(key).catch(()=>null)`
turns a thrown lookup into `null`, and `cfg ? cfg.value : fallback`
returns the fallback for a missing key. -/
def getFlag {α : Type} (lookup : Except Unit (Option α)) (fallback : α) : α :=
  match lookup with
  | .error _ => fallback
  | .ok none => fallback
  | .ok (some v) => v

/-- The decision expression of the pipeline:
`(autoClose && cls.confidence >= threshold) ? 'auto_close' : 'human'`. -/
def decisionOf (autoClose : Bool) (confidence threshold : ℚ) : String :=
  if autoClose && decide (threshold ≤ confidence) then "auto_close" else "human"

/-- The value `triageTicket` returns on success. -/
structure TriageSuccess where
  traceId : String
  suggestionId : ℕ
  decision : String
deriving DecidableEq

deriving instance DecidableEq for Except

/-- One triage run: its outcome together with the audit entries written,
the suggestions created and the final state of the ticket store. -/
structure TriageRun where
  outcome : Except String TriageSuccess
  audit : List AuditEntry
  suggestions : List AgentSuggestion
  tickets : List Ticket
deriving DecidableEq

/-- The body of `triageTicket` once the ticket is found: the six logged
stages, the suggestion, and the ticket update. -/
def triageBody (env : Env) (optTrace : Option String) (ticket : Ticket) : TriageRun :=
  let traceId := optTrace.getD env.freshTraceId
  let e1 := mkLog ticket.id traceId "AGENT_PLAN"
  let cls := classify (some (ticket.title ++ "\n\n" ++ ticket.description))
  let e2 := mkLog ticket.id traceId "AGENT_CLASSIFIED"
  let query := jsOrString ticket.description ticket.title
  let articles := searchTop query env.articles 3
  let e3 := mkLog ticket.id traceId "KB_RETRIEVED"
  let drafted := draft query articles
  let e4 := mkLog ticket.id traceId "DRAFT_GENERATED"
  let autoClose := getFlag env.cfgAutoCloseEnabled true
  let threshold := getFlag env.cfgConfidenceThreshold (78/100)
  let decision := decisionOf autoClose cls.confidence threshold
  let e5 := mkLog ticket.id traceId "DECISION_MADE"
  let suggestion : AgentSuggestion :=
    { ticketId := ticket.id
      predictedCategory := cls.predictedCategory
      articleIds := articles.map (·.id)
      draftReply := drafted.draftReply
      citations := drafted.citations
      confidence := cls.confidence
      autoClosed := decision == "auto_close"
      modelInfo := ⟨"stub", "heuristic-1", "v1", env.latencyMs, env.stubMode⟩ }
  let updated : Ticket :=
    { ticket with
      category := cls.predictedCategory
      agentSuggestionId := some env.newSuggestionId
      status := if decision == "auto_close" then "resolved" else "waiting_human" }
  let e6 := mkLog ticket.id traceId
    (if decision == "auto_close" then "AUTO_CLOSED" else "ASSIGNED_TO_HUMAN")
  { outcome := .ok ⟨traceId, env.newSuggestionId, decision⟩
    audit := [e1, e2, e3, e4, e5, e6]
    suggestions := [suggestion]
    tickets := env.tickets.map (fun t => if t.id == ticket.id then updated else t) }

/-- `triageTicket(ticketId, options)` from `triageService.js`.  The trace
id is `options.traceId || uuid()`; a missing ticket throws
`'Ticket not found'` before anything is written. -/
def triageTicket (env : Env) (ticketId : ℕ) (optTrace : Option String) : TriageRun :=
  match env.tickets.find? (fun t => t.id == ticketId) with
  | none =>
    { outcome := .error "Ticket not found"
      audit := []
      suggestions := []
      tickets := env.tickets }
  | some ticket => triageBody env optTrace ticket

/-- Is the outcome a success? -/
def isOkB {ε α : Type} : Except ε α → Bool
  | .ok _ => true
  | .error _ => false

/-- A one-ticket, empty-article environment with both config keys absent,
used to exercise the pipeline at concrete inputs. -/
def envOneTicket : Env :=
  { tickets := [⟨1, "", "", "other", "open", none⟩]
    articles := []
    cfgAutoCloseEnabled := .ok none
    cfgConfidenceThreshold := .ok none
    freshTraceId := "fresh"
    newSuggestionId := 42
    latencyMs := 7
    stubMode := true }

/-- An environment whose ticket store is empty (the audit and suggestion
stores accept writes as always). -/
def envEmpty : Env :=
  { tickets := []
    articles := []
    cfgAutoCloseEnabled := .ok none
    cfgConfidenceThreshold := .ok none
    freshTraceId := "fresh"
    newSuggestionId := 0
    latencyMs := 0
    stubMode := true }

/-- The selection rule as the specification states it: the first-declared
category among those with the maximal keyword hit count, and `"other"`
exactly when no category has a positive hit count.  (Spec-side definition,
to be compared with the classifier loop.) -/
def argmaxSpec (hb ht hs : ℕ) : String :=
  if hb = 0 ∧ ht = 0 ∧ hs = 0 then "other"
  else if ht ≤ hb ∧ hs ≤ hb then "billing"
  else if hs ≤ ht then "tech"
  else "shipping"

/-! ## Classifier lemmas -/

/-- Accumulator bound behind `hitCount`. -/
theorem foldl_hits_le (t : String) :
    ∀ (ws : List String) (a : ℕ),
      ws.foldl (fun a w => a + (if jsIncludes t w then 1 else 0)) a ≤ a + ws.length := by
  intro ws
  induction ws with
  | nil => simp
  | cons w ws ih =>
    intro a
    simp only [List.foldl_cons, List.length_cons]
    refine (ih _).trans ?_
    split <;> omega

/-- Each keyword is counted at most once, so the hit count of a keyword
list is at most its length. -/
theorem hitCount_le (t : String) (ws : List String) : hitCount t ws ≤ ws.length := by
  simpa using foldl_hits_le t ws 0

/-- Rounding to two decimals keeps a nonnegative value nonnegative. -/
theorem round2_nonneg {q : ℚ} (h : 0 ≤ q) : 0 ≤ round2 q := by
  unfold round2
  have h1 : (0 : ℤ) ≤ round (100 * q) := by
    rw [round_eq]
    exact Int.floor_nonneg.mpr (by linarith)
  have h2 : (0 : ℚ) ≤ ((round (100 * q) : ℤ) : ℚ) := by exact_mod_cast h1
  exact div_nonneg h2 (by norm_num)

/-- Rounding to two decimals keeps a value at most one at most one. -/
theorem round2_le_one {q : ℚ} (h : q ≤ 1) : round2 q ≤ 1 := by
  unfold round2
  have h1 : round (100 * q) ≤ 100 := by
    rw [round_eq]
    calc ⌊100 * q + 1/2⌋ ≤ ⌊(201 : ℚ)/2⌋ := Int.floor_le_floor (by linarith)
      _ = 100 := by norm_num
  rw [div_le_one (by norm_num)]
  exact_mod_cast h1

/-- The confidence of `classify`, written out. -/
theorem classify_confidence_eq (o : Option String) :
    (classify o).confidence =
      round2 (min 1 (jsOrRat (((bestOf (jsToLower (o.getD ""))).score : ℚ) / 3) (2/5))) := rfl

/-- Every classification confidence is nonnegative. -/
theorem classify_confidence_nonneg (o : Option String) : 0 ≤ (classify o).confidence := by
  rw [classify_confidence_eq]
  refine round2_nonneg (le_min (by norm_num) ?_)
  unfold jsOrRat
  split
  · norm_num
  · positivity

/-- Every classification confidence is at most one. -/
theorem classify_confidence_le_one (o : Option String) : (classify o).confidence ≤ 1 := by
  rw [classify_confidence_eq]
  exact round2_le_one (min_le_left _ _)

/-! ## Claim theorems: decision policy, classifier, drafter -/

/-- C1: for every confidence `c` and config `{autoCloseEnabled, confidenceThreshold t}`,
the pipeline's decision is auto-close iff `autoCloseEnabled` and `c ≥ t`
(inclusive comparison), it is never auto-close when the toggle is off, and
auto-close and assign-to-human are complementary with no third outcome. -/
theorem C1_decision_policy (e : Bool) (c t : ℚ) :
    (decisionOf e c t = "auto_close" ↔ e = true ∧ t ≤ c) ∧
    (decisionOf e c t = "human" ↔ ¬(e = true ∧ t ≤ c)) ∧
    (e = false → decisionOf e c t = "human") ∧
    (decisionOf e c t = "auto_close" ∨ decisionOf e c t = "human") := by
  unfold decisionOf
  cases e with
  | false => simp
  | true => by_cases h : t ≤ c <;> simp [h]

/-- Witness for C1 at concrete inputs: confidence equal to the threshold
auto-closes when enabled, and a disabled toggle assigns to human. -/
theorem C1_decision_policy_witness :
    decisionOf true (78/100) (78/100) = "auto_close" ∧ decisionOf false 1 0 = "human" :=
  ⟨(C1_decision_policy true (78/100) (78/100)).1.mpr ⟨rfl, le_refl _⟩,
   (C1_decision_policy false 1 0).2.2.1 rfl⟩

/-- C9: `classify` is a total function (it never throws); a `null` or
`undefined` argument is treated as the empty string and gives the same
result as `classify("")`, and `classify("")` returns category `other`. -/
theorem C9_classify_never_throws :
    (∀ o : Option String, classify o = classify (some (o.getD ""))) ∧
    classify none = classify (some "") ∧
    (classify (some "")).predictedCategory = "other" := by
  refine ⟨fun o => ?_, rfl, by decide⟩
  cases o <;> rfl

/-- C10: the drafter ignores its query-text argument — any two query
texts give the identical draft over the same articles — and the citations
are the article ids in input order. -/
theorem C10_draft_ignores_query (q1 q2 : String) (arts : List Article) :
    draft q1 arts = draft q2 arts ∧ (draft q1 arts).citations = arts.map (·.id) :=
  ⟨rfl, rfl⟩

/-- C3: the classifier of the triage pipeline derives confidence by
policy (a): `min(1, hits/3)` over the winning hit count, floored at `0.4`
when the hit count is zero, rounded to two decimals; and on the input
`"I need a refund for my payment"` it returns category `billing` with
confidence strictly above `0.5`. -/
theorem C3_confidence_policy_a :
    (∀ o : Option String,
      (classify o).confidence =
        round2 (if (bestOf (jsToLower (o.getD ""))).score = 0 then 2/5
          else min 1 (((bestOf (jsToLower (o.getD ""))).score : ℚ) / 3))) ∧
    (classify (some "I need a refund for my payment")).predictedCategory = "billing" ∧
    1/2 < (classify (some "I need a refund for my payment")).confidence := by
  refine ⟨fun o => ?_, by decide, ?_⟩
  · rw [classify_confidence_eq]
    by_cases hs : (bestOf (jsToLower (o.getD ""))).score = 0
    · rw [hs, if_pos rfl]
      unfold jsOrRat
      norm_num
    · rw [if_neg hs]
      unfold jsOrRat
      rw [if_neg (by simp [div_eq_zero_iff, hs])]
  · have hb : bestOf (jsToLower ((some "I need a refund for my payment").getD "")) =
        ⟨"billing", 2⟩ := by decide
    rw [classify_confidence_eq, hb]
    unfold jsOrRat round2
    rw [round_eq]
    norm_num

/-- The first branch test of `argmaxSpec` characterises `"other"`. -/
theorem argmaxSpec_eq_other (hb ht hs : ℕ) :
    argmaxSpec hb ht hs = "other" ↔ hb = 0 ∧ ht = 0 ∧ hs = 0 := by
  unfold argmaxSpec
  split_ifs with h1 h2 h3
  · exact iff_of_true rfl h1
  · exact iff_of_false (by decide) h1
  · exact iff_of_false (by decide) h1
  · exact iff_of_false (by decide) h1

/-- The classifier loop realises the specification's selection rule. -/
theorem bestOf_cat_eq (t : String) :
    (bestOf t).cat =
      argmaxSpec (hitCount t billingWords) (hitCount t techWords)
        (hitCount t shippingWords) := by
  unfold bestOf heuristics argmaxSpec
  simp only [List.foldl_cons, List.foldl_nil, apply_ite Best.score, apply_ite Best.cat]
  split_ifs <;> first | rfl | (exfalso; omega)

/-- C4: `classify` selects the category with the highest keyword hit
count (each keyword counted at most once), ties broken by first-declared
category order, and returns `other` exactly when no category scores above
zero. -/
theorem C4_classify_selection (text : String) :
    ((classify (some text)).predictedCategory =
      argmaxSpec (hitCount (jsToLower text) billingWords)
        (hitCount (jsToLower text) techWords)
        (hitCount (jsToLower text) shippingWords)) ∧
    ((classify (some text)).predictedCategory = "other" ↔
      hitCount (jsToLower text) billingWords = 0 ∧
      hitCount (jsToLower text) techWords = 0 ∧
      hitCount (jsToLower text) shippingWords = 0) ∧
    (∀ ws : List String, hitCount (jsToLower text) ws ≤ ws.length) := by
  have hcat : (classify (some text)).predictedCategory = (bestOf (jsToLower text)).cat := rfl
  refine ⟨?_, ?_, fun ws => hitCount_le _ ws⟩
  · rw [hcat]
    exact bestOf_cat_eq _
  · rw [hcat, bestOf_cat_eq]
    exact argmaxSpec_eq_other _ _ _

/-- Witness for C4 at a concrete input: a text hitting no keyword is
classified `other`. -/
theorem C4_classify_selection_witness :
    (classify (some "hello there")).predictedCategory = "other" :=
  (C4_classify_selection "hello there").2.1.mpr (by decide)

/-! ## Ranker lemmas -/

/-- Inserting permutes to consing. -/
theorem insertDesc_perm (x : Scored) (l : List Scored) :
    List.Perm (insertDesc x l) (x :: l) := by
  induction l with
  | nil => exact List.Perm.refl _
  | cons y ys ih =>
    unfold insertDesc
    split
    · exact List.Perm.refl _
    · exact (ih.cons y).trans (List.Perm.swap x y ys)

/-- Membership in an insertion. -/
theorem mem_insertDesc {z x : Scored} {l : List Scored} :
    z ∈ insertDesc x l ↔ z = x ∨ z ∈ l := by
  rw [(insertDesc_perm x l).mem_iff, List.mem_cons]

/-- Insertion preserves descending sortedness by score. -/
theorem insertDesc_sorted {x : Scored} {l : List Scored}
    (h : l.Pairwise (fun a b => b.score ≤ a.score)) :
    (insertDesc x l).Pairwise (fun a b => b.score ≤ a.score) := by
  induction l with
  | nil => simp [insertDesc]
  | cons y ys ih =>
    rw [List.pairwise_cons] at h
    obtain ⟨hy, hys⟩ := h
    unfold insertDesc
    split
    · rename_i hcond
      refine List.pairwise_cons.mpr ⟨?_, List.pairwise_cons.mpr ⟨hy, hys⟩⟩
      intro z hz
      rcases List.mem_cons.mp hz with rfl | hz'
      · exact hcond
      · exact (hy z hz').trans hcond
    · rename_i hcond
      refine List.pairwise_cons.mpr ⟨?_, ih hys⟩
      intro z hz
      rcases mem_insertDesc.mp hz with rfl | hz'
      · exact le_of_lt (lt_of_not_le hcond)
      · exact hy z hz'

/-- Insertion of an element positioned before the whole list preserves
the stability invariant (equal scores are ordered by position). -/
theorem insertDesc_stable {x : Scored} {l : List Scored}
    (hl : l.Pairwise (fun a b => a.score = b.score → a.pos < b.pos))
    (hpos : ∀ y ∈ l, x.pos < y.pos) :
    (insertDesc x l).Pairwise (fun a b => a.score = b.score → a.pos < b.pos) := by
  induction l with
  | nil => simp [insertDesc]
  | cons y ys ih =>
    rw [List.pairwise_cons] at hl
    obtain ⟨hy, hys⟩ := hl
    unfold insertDesc
    split
    · refine List.pairwise_cons.mpr ⟨?_, List.pairwise_cons.mpr ⟨hy, hys⟩⟩
      intro z hz _
      exact hpos z hz
    · rename_i hcond
      refine List.pairwise_cons.mpr
        ⟨?_, ih hys (fun z hz => hpos z (List.mem_cons_of_mem y hz))⟩
      intro z hz
      rcases mem_insertDesc.mp hz with rfl | hz'
      · intro hscore
        exact absurd (le_of_eq hscore) hcond
      · exact hy z hz'

/-- The sort permutes its input. -/
theorem sortDesc_perm (l : List Scored) : List.Perm (sortDesc l) l := by
  induction l with
  | nil => exact List.Perm.refl _
  | cons x xs ih => exact (insertDesc_perm x (sortDesc xs)).trans (ih.cons x)

/-- The sort output is descending by score. -/
theorem sortDesc_sorted (l : List Scored) :
    (sortDesc l).Pairwise (fun a b => b.score ≤ a.score) := by
  induction l with
  | nil => simp [sortDesc]
  | cons x xs ih => exact insertDesc_sorted ih

/-- The sort is stable: on an input with strictly increasing positions,
equal scores stay ordered by position. -/
theorem sortDesc_stable {l : List Scored}
    (h : l.Pairwise (fun a b => a.pos < b.pos)) :
    (sortDesc l).Pairwise (fun a b => a.score = b.score → a.pos < b.pos) := by
  induction l with
  | nil => simp [sortDesc]
  | cons x xs ih =>
    rw [List.pairwise_cons] at h
    obtain ⟨hx, hxs⟩ := h
    exact insertDesc_stable (ih hxs) (fun y hy => hx y ((sortDesc_perm xs).subset hy))

/-- Every element of `enumFrom n l` has first component at least `n`. -/
theorem le_fst_of_mem_enumFromAux {α : Type} :
    ∀ (l : List α) (n : ℕ) (p : ℕ × α), p ∈ l.enumFrom n → n ≤ p.1 := by
  intro l
  induction l with
  | nil => intro n p hp; simp [List.enumFrom] at hp
  | cons x xs ih =>
    intro n p hp
    rcases List.mem_cons.mp hp with rfl | hp'
    · exact le_refl _
    · exact (Nat.le_succ n).trans (ih (n + 1) p hp')

/-- Enumerated lists have strictly increasing first components. -/
theorem pairwise_fst_enumFrom {α : Type} :
    ∀ (l : List α) (n : ℕ), (l.enumFrom n).Pairwise (fun a b => a.1 < b.1) := by
  intro l
  induction l with
  | nil => intro n; simp [List.enumFrom]
  | cons x xs ih =>
    intro n
    refine List.pairwise_cons.mpr ⟨?_, ih (n + 1)⟩
    intro p hp
    exact Nat.lt_of_lt_of_le (Nat.lt_succ_self n) (le_fst_of_mem_enumFromAux xs (n + 1) p hp)

/-- The scored candidate list carries strictly increasing positions. -/
theorem scoredOf_pos_increasing (q : String) (arts : List Article) :
    (scoredOf q arts).Pairwise (fun a b => a.pos < b.pos) := by
  unfold scoredOf
  rw [List.pairwise_map]
  exact pairwise_fst_enumFrom _ 0

/-- Every ranked entry's score is the weighted score of its article. -/
theorem rankScored_score (q : String) (arts : List Article) :
    ∀ e ∈ rankScored q arts, e.score = scoreArticle q e.article := by
  intro e he
  have hmem : e ∈ scoredOf q arts := (sortDesc_perm _).subset he
  unfold scoredOf at hmem
  rcases List.mem_map.mp hmem with ⟨p, _, rfl⟩
  rfl

/-- C7: the ranker sorts candidates in descending order of score, where a
title match weighs 2, a tag match 1 and a body match 0.5, and the sort is
stable: entries of equal score keep their relative candidate order (the
ranked list permutes the position-annotated candidate list, and equal
scores are ordered by position). -/
theorem C7_ranker_sorted_stable (q : String) (arts : List Article) (limit : ℕ) :
    (rankScored q arts).Pairwise (fun a b => b.score ≤ a.score) ∧
    (rankScored q arts).Pairwise (fun a b => a.score = b.score → a.pos < b.pos) ∧
    List.Perm (rankScored q arts) (scoredOf q arts) ∧
    (∀ e ∈ rankScored q arts,
      e.score = (if matchesQuery q e.article.title then 2 else 0) +
        (if e.article.tags.any (fun t => matchesQuery q t) then 1 else 0) +
        (if matchesQuery q e.article.body then 1/2 else 0)) ∧
    searchTop q arts limit =
      (if q = "" ∨ jsTrim q = "" then []
        else ((rankScored (jsTrim q) arts).take limit).map (·.article)) := by
  refine ⟨sortDesc_sorted _, sortDesc_stable (scoredOf_pos_increasing q arts),
    sortDesc_perm _, ?_, rfl⟩
  intro e he
  simpa [scoreArticle] using rankScored_score q arts e he

/-- Witness for C7 at a concrete query and candidate store. -/
theorem C7_ranker_sorted_stable_witness :
    (rankScored "refund"
        [⟨1, "How to get a refund", "refund steps", ["billing"], "published"⟩,
         ⟨2, "Payment methods", "ask for a refund", [], "published"⟩]).Pairwise
      (fun a b => a.score = b.score → a.pos < b.pos) :=
  (C7_ranker_sorted_stable "refund"
    [⟨1, "How to get a refund", "refund steps", ["billing"], "published"⟩,
     ⟨2, "Payment methods", "ask for a refund", [], "published"⟩] 3).2.1

/-- C8: the ranker returns at most `limit` results, and returns the empty
sequence whenever the candidate store is empty or the query is empty or
whitespace-only, for any limit. -/
theorem C8_ranker_limit_empty (q : String) (arts : List Article) (n : ℕ) :
    (searchTop q arts n).length ≤ n ∧
    (arts = [] → searchTop q arts n = []) ∧
    (jsTrim q = "" → searchTop q arts n = []) := by
  refine ⟨?_, ?_, ?_⟩
  · unfold searchTop
    split
    · simp
    · rw [List.length_map, List.length_take]
      exact min_le_left _ _
  · intro h
    subst h
    unfold searchTop
    split
    · rfl
    · simp [rankScored, scoredOf, publishedMatches, sortDesc]
  · intro h
    unfold searchTop
    rw [if_pos (Or.inr h)]

/-- Witness for C8 at concrete inputs: whitespace-only query, empty
store, and limit zero. -/
theorem C8_ranker_limit_empty_witness :
    searchTop "   " [⟨1, "T", "b", [], "published"⟩] 3 = [] ∧
    searchTop "refund" [] 5 = [] ∧
    (searchTop "refund" [⟨1, "T", "b", [], "published"⟩] 0).length ≤ 0 :=
  ⟨(C8_ranker_limit_empty "   " [⟨1, "T", "b", [], "published"⟩] 3).2.2 (by decide),
   (C8_ranker_limit_empty "refund" [] 5).2.1 rfl,
   (C8_ranker_limit_empty "refund" [⟨1, "T", "b", [], "published"⟩] 0).1⟩

/-! ## Pipeline claims -/

/-- Counterexample to C6 as stated: with an empty ticket store (the audit
store accepting writes as always), triaging ticket 7 throws
`Ticket not found` and creates no suggestion, but writes no audit entry at
all — in particular no failure audit entry is recorded. -/
theorem C6_counterexample_no_failure_audit :
    (triageTicket envEmpty 7 none).outcome = .error "Ticket not found" ∧
    (triageTicket envEmpty 7 none).suggestions = [] ∧
    (triageTicket envEmpty 7 none).audit = [] :=
  ⟨rfl, rfl, rfl⟩

/-- C6 (amended): for every ticket id that does not resolve to a ticket,
triage throws `Ticket not found`, creates no `AgentSuggestion`, leaves the
ticket store unchanged, and writes no audit entries (hence no failure
audit entry). -/
theorem C6_missing_ticket_amended (env : Env) (tid : ℕ) (opt : Option String)
    (h : env.tickets.find? (fun t => t.id == tid) = none) :
    (triageTicket env tid opt).outcome = .error "Ticket not found" ∧
    (triageTicket env tid opt).suggestions = [] ∧
    (triageTicket env tid opt).tickets = env.tickets ∧
    (triageTicket env tid opt).audit = [] := by
  unfold triageTicket
  rw [h]
  exact ⟨rfl, rfl, rfl, rfl⟩

/-- Witness for the amended C6 at a concrete empty store. -/
theorem C6_missing_ticket_amended_witness :
    (triageTicket envEmpty 9 none).outcome = .error "Ticket not found" ∧
    (triageTicket envEmpty 9 none).suggestions = [] ∧
    (triageTicket envEmpty 9 none).tickets = envEmpty.tickets ∧
    (triageTicket envEmpty 9 none).audit = [] :=
  C6_missing_ticket_amended envEmpty 9 none rfl

/-- C5: when the config keys are absent from the store (or the lookup
throws), the pipeline's decision step behaves exactly as with explicit
values `true` and `0.78`, and the success of a run is determined solely by
whether the ticket exists — a missing config key never fails the run. -/
theorem C5_missing_config_defaults (env : Env) (tid : ℕ) (opt : Option String)
    (hA : env.cfgAutoCloseEnabled = .ok none ∨ env.cfgAutoCloseEnabled = .error ())
    (hT : env.cfgConfidenceThreshold = .ok none ∨ env.cfgConfidenceThreshold = .error ()) :
    triageTicket env tid opt =
      triageTicket
        { env with
          cfgAutoCloseEnabled := .ok (some true)
          cfgConfidenceThreshold := .ok (some (78/100)) } tid opt ∧
    isOkB (triageTicket env tid opt).outcome =
      (env.tickets.find? (fun t => t.id == tid)).isSome := by
  have hgA : getFlag env.cfgAutoCloseEnabled true = true := by
    rcases hA with h | h <;> rw [h] <;> rfl
  have hgT : getFlag env.cfgConfidenceThreshold (78/100) = 78/100 := by
    rcases hT with h | h <;> rw [h] <;> rfl
  have hbody : ∀ ticket,
      triageBody env opt ticket =
        triageBody
          { env with
            cfgAutoCloseEnabled := .ok (some true)
            cfgConfidenceThreshold := .ok (some (78/100)) } opt ticket := by
    intro ticket
    unfold triageBody
    rw [hgA, hgT]
    rfl
  constructor
  · unfold triageTicket
    cases hf : env.tickets.find? (fun t => t.id == tid) with
    | none => rfl
    | some ticket => exact hbody ticket
  · unfold triageTicket
    cases hf : env.tickets.find? (fun t => t.id == tid) with
    | none => rfl
    | some ticket => rfl

/-- Witness for C5 at a concrete environment with both keys absent. -/
theorem C5_missing_config_defaults_witness :
    (triageTicket envOneTicket 1 none =
      triageTicket
        { envOneTicket with
          cfgAutoCloseEnabled := .ok (some true)
          cfgConfidenceThreshold := .ok (some (78/100)) } 1 none) ∧
    isOkB (triageTicket envOneTicket 1 none).outcome =
      (envOneTicket.tickets.find? (fun t => t.id == 1)).isSome :=
  C5_missing_config_defaults envOneTicket 1 none (Or.inl rfl) (Or.inl rfl)

/-- C2: every successful triage run writes exactly one audit entry per
pipeline stage — six entries in stage order, the last being `AUTO_CLOSED`
exactly when the run auto-closed — all sharing the run's single trace id;
exactly one `AgentSuggestion` is created, its confidence lies in `[0, 1]`
and its auto-closed flag matches the decision; and the updated ticket has
status `resolved` if the run auto-closed and `waiting_human` otherwise. -/
theorem C2_triage_run_invariants (env : Env) (tid : ℕ) (opt : Option String)
    (s : TriageSuccess) (h : (triageTicket env tid opt).outcome = .ok s) :
    (triageTicket env tid opt).audit.map (fun e => e.action) =
      ["AGENT_PLAN", "AGENT_CLASSIFIED", "KB_RETRIEVED", "DRAFT_GENERATED", "DECISION_MADE",
        if s.decision = "auto_close" then "AUTO_CLOSED" else "ASSIGNED_TO_HUMAN"] ∧
    (∀ e ∈ (triageTicket env tid opt).audit, e.traceId = s.traceId) ∧
    (triageTicket env tid opt).suggestions.length = 1 ∧
    (∀ sg ∈ (triageTicket env tid opt).suggestions,
      0 ≤ sg.confidence ∧ sg.confidence ≤ 1 ∧
      (sg.autoClosed = true ↔ s.decision = "auto_close")) ∧
    (∀ t ∈ (triageTicket env tid opt).tickets, t.id = tid →
      t.status = if s.decision = "auto_close" then "resolved" else "waiting_human") := by
  cases hf : env.tickets.find? (fun t => t.id == tid) with
  | none =>
    have hrun : triageTicket env tid opt =
        ⟨.error "Ticket not found", [], [], env.tickets⟩ := by
      unfold triageTicket
      rw [hf]
    rw [hrun] at h
    simp at h
  | some ticket =>
    have hrun : triageTicket env tid opt = triageBody env opt ticket := by
      unfold triageTicket
      rw [hf]
    rw [hrun] at h ⊢
    rw [triageBody] at h ⊢
    dsimp only at h ⊢
    rw [Except.ok.injEq] at h
    subst h
    dsimp only
    refine ⟨?_, ?_, rfl, ?_, ?_⟩
    · simp [mkLog, beq_iff_eq]
    · intro e he
      simp only [mkLog, List.mem_cons, List.not_mem_nil, or_false] at he
      rcases he with rfl | rfl | rfl | rfl | rfl | rfl <;> rfl
    · intro sg hsg
      simp only [List.mem_cons, List.not_mem_nil, or_false] at hsg
      subst hsg
      refine ⟨classify_confidence_nonneg _, classify_confidence_le_one _, ?_⟩
      exact beq_iff_eq
    · intro t ht hid
      rcases List.mem_map.mp ht with ⟨t0, ht0, rfl⟩
      have hticket : ticket.id = tid := by
        have := List.find?_some hf
        simpa using this
      by_cases h0 : t0.id = ticket.id
      · simp [h0, beq_iff_eq]
      · have hb0 : (t0.id == ticket.id) = false := by simp [h0]
        rw [hb0] at hid ⊢
        simp only [Bool.false_eq_true, if_false] at hid
        exact absurd (hid.trans hticket.symm) h0

/-- Witness for C2: a concrete successful run on the one-ticket
environment, whose decision is `human`. -/
theorem C2_triage_run_invariants_witness :
    (triageTicket envOneTicket 1 none).audit.map (fun e => e.action) =
      ["AGENT_PLAN", "AGENT_CLASSIFIED", "KB_RETRIEVED", "DRAFT_GENERATED", "DECISION_MADE",
        if ("human" : String) = "auto_close" then "AUTO_CLOSED" else "ASSIGNED_TO_HUMAN"] ∧
    (∀ e ∈ (triageTicket envOneTicket 1 none).audit, e.traceId = "fresh") ∧
    (triageTicket envOneTicket 1 none).suggestions.length = 1 ∧
    (∀ sg ∈ (triageTicket envOneTicket 1 none).suggestions,
      0 ≤ sg.confidence ∧ sg.confidence ≤ 1 ∧
      (sg.autoClosed = true ↔ ("human" : String) = "auto_close")) ∧
    (∀ t ∈ (triageTicket envOneTicket 1 none).tickets, t.id = 1 →
      t.status = if ("human" : String) = "auto_close" then "resolved" else "waiting_human") :=
  C2_triage_run_invariants envOneTicket 1 none ⟨"fresh", 42, "human"⟩ (by
    have hconf : (classify (some ("" ++ "\n\n" ++ ""))).confidence = 2/5 := by
      have hb : bestOf (jsToLower ((some ("" ++ "\n\n" ++ "")).getD "")) = ⟨"other", 0⟩ := by
        decide
      rw [classify_confidence_eq, hb]
      unfold jsOrRat round2
      rw [round_eq]
      norm_num
    have hdec : decisionOf true (2/5) (78/100) = "human" := by
      unfold decisionOf
      rw [decide_eq_false (by norm_num : ¬((78 : ℚ)/100 ≤ 2/5))]
      rfl
    have hrun : triageTicket envOneTicket 1 none =
        triageBody envOneTicket none ⟨1, "", "", "other", "open", none⟩ := by
      unfold triageTicket
      rw [show envOneTicket.tickets.find? (fun t => t.id == 1) =
        some ⟨1, "", "", "other", "open", none⟩ from by decide]
    rw [hrun, triageBody]
    dsimp only
    rw [show getFlag envOneTicket.cfgAutoCloseEnabled true = true from rfl,
      show getFlag envOneTicket.cfgConfidenceThreshold (78/100) = 78/100 from rfl,
      hconf, hdec]
    rfl)

end SmartHelpdesk
